import Mathlib

/-!
Verification of the content splitter and field validators of the
pasportaservo repository excerpt.

The content splitter lives in `blog/models.py` (`Post.save`), which is not
part of the excerpt under `src/`; its behavior is pinned down by the
assertions of `src/blog/tests/test_blog_models.py` (`PostModelTests.test_save`
and `PostModelTests.test_splitter`).  The model below follows those
assertions.  Where the natural-language spec and the tests disagree
(plain-substring versus isolated-run matching of the `----` separator, and
the value of `description` for degenerate splits), the tests are followed:

* the separator is the leftmost run of exactly four dashes that is neither
  preceded nor followed by another dash (the tests with runs of 2, 3, 5 and
  6 dashes demand that such runs are never treated as separators, which
  forces dash-boundary isolation, i.e. a scan equivalent to the regular
  expression `(?<!-)----(?!-)` with at most one split);
* `description` is the rendered text before the separator — so it equals
  the rendered full content when there is no separator, and equals `body`
  when the remainder is empty (the tests assert a non-empty description
  equal to `body` in exactly those situations).

`validate_not_all_caps` is taken directly from `src/hosting/validators.py`;
characters are modelled as Unicode codepoints.  Python's `str.upper`,
`str.isupper` and `str.islower` are embedded by their exact Unicode data
(full case mappings and the Uppercase/Lowercase properties) on the Basic
Latin, Latin-1 Supplement and Latin Extended-A blocks, U+0000 to U+017F —
the range containing every Esperanto letter this site's validators target;
characters beyond that range are outside the model's faithfulness scope
and the validator theorems restrict their quantifiers accordingly.
-/

namespace PasportaServo

/-- The four-dash separator token, as a list of characters. -/
def SEP : List Char := ['-', '-', '-', '-']

/-- Does the list start with a dash character? -/
def startsWithDash : List Char → Bool
  | [] => false
  | c :: _ => c == '-'

/-- After a candidate first dash of a separator: the next three characters
must be dashes and the character after them (if any) must not be a dash
(the negative lookahead of the separator pattern). -/
def sepTailOk (l : List Char) : Bool :=
  (l.take 3 == ['-', '-', '-']) && !startsWithDash (l.drop 3)

/-- Left-to-right scan for the first isolated run of exactly four dashes,
the separator match of the pattern with a negative lookbehind and lookahead.
`prev` records whether the previously scanned character was a dash (the
lookbehind).  On a match, returns the text before the run and the text
after it. -/
def findSepFrom : Bool → List Char → Option (List Char × List Char)
  | _, [] => none
  | prev, c :: rest =>
    if c == '-' && !prev && sepTailOk rest then
      some ([], rest.drop 3)
    else
      Option.map (fun pq => (c :: pq.1, pq.2)) (findSepFrom (c == '-') rest)

/-- The content splitter of a blog post, with the markup renderer injected:
split the content at the first isolated four-dash run (if any);
`description` is the rendered text before the run and `body` is the
rendered content with the run deleted.  With no separator both components
are the rendered full content. -/
def split_and_render (render : String → String) (content : String) :
    String × String :=
  match findSepFrom false content.data with
  | some pq => (render ⟨pq.1⟩, render ⟨pq.1 ++ pq.2⟩)
  | none => (render content, render content)

/-- The trivial paragraph renderer used by the spec's concrete scenarios and
by the repository's tests: wrap non-empty text in a paragraph tag, map the
empty string to the empty string. -/
def renderP (s : String) : String :=
  if s = "" then "" else "<p>" ++ s ++ "</p>\n"

/-- A string consisting of `n` dash characters. -/
def dashes (n : Nat) : String := ⟨List.replicate n '-'⟩

/-- Does the list end with a dash character? -/
def endsWithDash : List Char → Bool
  | [] => false
  | c :: rest =>
    match rest with
    | [] => c == '-'
    | _ :: _ => endsWithDash rest

/-- Does the list contain four consecutive dashes anywhere (any occurrence
of the plain `----` substring, isolated or not)? -/
def hasFourDashes : List Char → Bool
  | [] => false
  | c :: rest => (c == '-' && rest.take 3 == ['-', '-', '-']) || hasFourDashes rest

/-- No character of the string is a dash. -/
def noDash (s : String) : Bool := s.data.all (fun c => !(c == '-'))

/-- Codepoints on which the case model below is faithful to Python: the
Basic Latin, Latin-1 Supplement and Latin Extended-A blocks (U+0000 to
U+017F), which contain every Esperanto letter and the leading letters
admitted by the sibling validator validate_latin. -/
def inLatinBlocks (c : Char) : Bool := c.toNat < 384

/-- Python str.upper() on one character of the Latin blocks: the full
Unicode uppercase mapping (a list, since ß expands to SS and ŉ to ʼN),
including the exceptional mappings µ → Μ (Greek capital Mu), ÿ → Ÿ,
ı → I and ſ → S.  Characters that are not lowercase letters — and the
lowercase letters ª, º and ĸ, which have no uppercase form — map to
themselves; characters beyond U+017F are left unchanged (out of the
model's scope). -/
def pyUpperChar (c : Char) : List Char :=
  let n := c.toNat
  if 97 ≤ n ∧ n ≤ 122 then [Char.ofNat (n - 32)]
  else if n = 181 then [Char.ofNat 924]
  else if n = 223 then ['S', 'S']
  else if (224 ≤ n ∧ n ≤ 246) ∨ (248 ≤ n ∧ n ≤ 254) then [Char.ofNat (n - 32)]
  else if n = 255 then [Char.ofNat 376]
  else if n = 305 then ['I']
  else if 257 ≤ n ∧ n ≤ 311 ∧ n % 2 = 1 then [Char.ofNat (n - 1)]
  else if 314 ≤ n ∧ n ≤ 328 ∧ n % 2 = 0 then [Char.ofNat (n - 1)]
  else if n = 329 then [Char.ofNat 700, 'N']
  else if 331 ≤ n ∧ n ≤ 375 ∧ n % 2 = 1 then [Char.ofNat (n - 1)]
  else if n = 378 ∨ n = 380 ∨ n = 382 then [Char.ofNat (n - 1)]
  else if n = 383 then ['S']
  else [c]

/-- Python str.isupper() on one character of the Latin blocks: the
Unicode Uppercase property — A-Z, À-Ö, Ø-Þ, the capital letters of
Latin Extended-A, and Ÿ, Ź, Ż, Ž. -/
def pyIsUpperChar (c : Char) : Bool :=
  let n := c.toNat
  (65 ≤ n && n ≤ 90) ||
  (192 ≤ n && n ≤ 214) || (216 ≤ n && n ≤ 222) ||
  (256 ≤ n && n ≤ 311 && n % 2 == 0) ||
  (313 ≤ n && n ≤ 327 && n % 2 == 1) ||
  (330 ≤ n && n ≤ 375 && n % 2 == 0) ||
  (n == 376) || (n == 377) || (n == 379) || (n == 381)

/-- Python str.islower() on one character of the Latin blocks: the
Unicode Lowercase property — a-z, the Other_Lowercase characters ª, µ
and º, ß-ö, ø-ÿ, the small letters of Latin Extended-A, and ĸ, ŉ, ſ. -/
def pyIsLowerChar (c : Char) : Bool :=
  let n := c.toNat
  (97 ≤ n && n ≤ 122) ||
  (n == 170) || (n == 181) || (n == 186) ||
  (223 ≤ n && n ≤ 246) || (248 ≤ n && n ≤ 255) ||
  (257 ≤ n && n ≤ 311 && n % 2 == 1) || (n == 312) ||
  (314 ≤ n && n ≤ 328 && n % 2 == 0) || (n == 329) ||
  (331 ≤ n && n ≤ 375 && n % 2 == 1) ||
  (n == 378) || (n == 380) || (n == 382) || (n == 383)

/-- Python str.upper() over the whole string: the concatenation of the
per-character full uppercase mappings. -/
def pyUpper (s : String) : String := ⟨(s.data.map pyUpperChar).flatten⟩

/-- Python value[-1:].isupper(): the string is non-empty and its last
character is an uppercase letter (the empty slice is not uppercase, and
no titlecase characters exist in the modelled blocks). -/
def lastIsUpper (s : String) : Bool :=
  match s.data.getLast? with
  | some c => pyIsUpperChar c
  | none => false

/-- hosting/validators.py, validate_not_all_caps: raise a ValidationError
with code caps exactly when the value is longer than 3 characters, its
last character is uppercase and the value equals its own uppercased form;
otherwise return normally.  The raised error is modelled as an Option
carrying the error code. -/
def validate_not_all_caps (value : String) : Option String :=
  if 3 < value.length ∧ lastIsUpper value = true ∧ value = pyUpper value then
    some "caps"
  else
    none

theorem findSepFrom_cons (prev : Bool) (c : Char) (rest : List Char) :
    findSepFrom prev (c :: rest) =
      if c == '-' && !prev && sepTailOk rest then
        some ([], rest.drop 3)
      else
        Option.map (fun pq => (c :: pq.1, pq.2)) (findSepFrom (c == '-') rest) := rfl

theorem startsWithDash_append (a b : List Char) (h : startsWithDash a = true) :
    startsWithDash (a ++ b) = true := by
  cases a with
  | nil => simp [startsWithDash] at h
  | cons c a => exact h

/-- Inversion of a successful separator scan: the scanned list really is
the text before, then exactly four dashes, then the text after; the text
before does not end with a dash and the text after does not start with one
(the matched run is isolated), and a match at the very beginning is only
possible when the lookbehind is clear. -/
theorem findSepFrom_sound :
    ∀ (l : List Char) (prev : Bool) (p q : List Char),
      findSepFrom prev l = some (p, q) →
      l = p ++ SEP ++ q ∧ startsWithDash q = false ∧ endsWithDash p = false ∧
        (p = [] → prev = false)
  | [], prev, p, q => by
    intro h
    simp [findSepFrom] at h
  | c :: rest, prev, p, q => by
    intro h
    rw [findSepFrom_cons] at h
    by_cases hcond : (c == '-' && !prev && sepTailOk rest) = true
    · rw [if_pos hcond] at h
      simp only [Option.some.injEq, Prod.mk.injEq] at h
      obtain ⟨h1, h2⟩ := h
      have hcond' := hcond
      simp only [Bool.and_eq_true] at hcond'
      obtain ⟨⟨hc, hprev⟩, htail⟩ := hcond'
      have hc' : c = '-' := by simpa using hc
      have htail' := htail
      simp only [sepTailOk, Bool.and_eq_true] at htail'
      obtain ⟨htake, hdrop⟩ := htail'
      have htake' : rest.take 3 = ['-', '-', '-'] := by simpa using htake
      have hrest : rest = '-' :: '-' :: '-' :: rest.drop 3 := by
        conv_lhs => rw [← List.take_append_drop 3 rest]
        rw [htake']
        rfl
      refine ⟨?_, ?_, ?_, ?_⟩
      · rw [← h1, ← h2, hc']
        conv_lhs => rw [hrest]
        rfl
      · rw [← h2]
        simpa using hdrop
      · rw [← h1]; rfl
      · intro _
        simpa using hprev
    · rw [if_neg hcond] at h
      rw [Option.map_eq_some'] at h
      obtain ⟨⟨p', q'⟩, hrec, hpq⟩ := h
      simp only [Prod.mk.injEq] at hpq
      obtain ⟨hp, hq⟩ := hpq
      obtain ⟨ih1, ih2, ih3, ih4⟩ := findSepFrom_sound rest (c == '-') p' q' hrec
      subst hp
      subst hq
      refine ⟨?_, ih2, ?_, ?_⟩
      · rw [ih1]; rfl
      · cases p' with
        | nil => simpa [endsWithDash] using ih4 rfl
        | cons x xs => simpa [endsWithDash] using ih3
      · intro hfalse
        exact absurd hfalse (by simp)

/-- The central append lemma: if `a` holds no separator match (given the
incoming lookbehind state), does not end with a dash, and `b` does not
start with one, then the scan of `a ++ "----" ++ b` matches exactly the
explicit separator, splitting off `a` and `b`. -/
theorem findSepFrom_append :
    ∀ (a : List Char) (prev : Bool) (b : List Char),
      (a = [] → prev = false) → endsWithDash a = false →
      findSepFrom prev a = none → startsWithDash b = false →
      findSepFrom prev (a ++ SEP ++ b) = some (a, b)
  | [], prev, b => by
    intro h0 _ _ hb
    have hprev : prev = false := h0 rfl
    subst hprev
    show findSepFrom false ('-' :: '-' :: '-' :: '-' :: b) = some ([], b)
    rw [findSepFrom_cons]
    have htail : sepTailOk ('-' :: '-' :: '-' :: b) = true := by
      simp [sepTailOk, hb]
    rw [htail]
    simp
  | c :: a', prev, b => by
    intro h0 hend hnone hb
    rw [findSepFrom_cons] at hnone
    by_cases hcond : (c == '-' && !prev && sepTailOk a') = true
    · rw [if_pos hcond] at hnone
      exact absurd hnone (by simp)
    rw [if_neg hcond] at hnone
    rw [Option.map_eq_none'] at hnone
    have hend' : endsWithDash a' = false := by
      cases a' with
      | nil => rfl
      | cons x xs => simpa [endsWithDash] using hend
    have h0' : a' = [] → (c == '-') = false := by
      intro ha
      subst ha
      simpa [endsWithDash] using hend
    have ih := findSepFrom_append a' (c == '-') b h0' hend' hnone hb
    show findSepFrom prev (c :: (a' ++ SEP ++ b)) = some (c :: a', b)
    rw [findSepFrom_cons]
    have hcond2 : (c == '-' && !prev && sepTailOk (a' ++ SEP ++ b)) = false := by
      cases hc : (c == '-') with
      | false => simp [hc]
      | true =>
        cases hp : prev with
        | true => simp
        | false =>
          subst hp
          -- the lookbehind is clear and we sit on a dash: the old tail
          -- check failed, and appending the separator cannot make it pass
          have htail : sepTailOk a' = false := by
            cases hst : sepTailOk a'
            · rfl
            · exact absurd (by simp [hc, hst]) hcond
          have hfin : sepTailOk (a' ++ (SEP ++ b)) = false := by
            cases a' with
            | nil =>
              exfalso
              have : endsWithDash [c] = (c == '-') := rfl
              rw [this, hc] at hend
              exact absurd hend (by simp)
            | cons d a'' =>
              cases a'' with
              | nil =>
                have hd : (d == '-') = false := by
                  simpa [endsWithDash] using hend
                simp [sepTailOk, SEP, hd]
              | cons e a''' =>
                cases a''' with
                | nil =>
                  have he : (e == '-') = false := by
                    simpa [endsWithDash] using hend
                  simp [sepTailOk, SEP, he]
                | cons f a4 =>
                  have hshape : (d :: e :: f :: a4) ++ (SEP ++ b) =
                      d :: e :: f :: (a4 ++ (SEP ++ b)) := by simp
                  rw [hshape]
                  simp only [sepTailOk, List.take_succ_cons, List.take_zero,
                    List.drop_succ_cons, List.drop_zero,
                    Bool.and_eq_false_iff] at htail ⊢
                  rcases htail with htake | hdrop
                  · left
                    exact htake
                  · right
                    simp only [Bool.not_eq_false'] at hdrop ⊢
                    exact startsWithDash_append a4 (SEP ++ b) hdrop
          simp [hfin]
    rw [hcond2]
    simp only [Bool.false_eq_true, if_false]
    rw [ih]
    rfl

theorem startsWithDash_nodash (l : List Char)
    (h : ∀ c ∈ l, (c == '-') = false) : startsWithDash l = false := by
  cases l with
  | nil => rfl
  | cons c rest => exact h c (List.mem_cons_self c rest)

theorem endsWithDash_nodash :
    ∀ (l : List Char), (∀ c ∈ l, (c == '-') = false) → endsWithDash l = false
  | [], _ => rfl
  | c :: rest, h => by
    cases rest with
    | nil => exact h c (List.mem_cons_self c [])
    | cons d rest' =>
      show endsWithDash (d :: rest') = false
      exact endsWithDash_nodash (d :: rest') fun x hx =>
        h x (List.mem_cons_of_mem c hx)

/-- A list without any dash character yields no separator match, whatever
the lookbehind state. -/
theorem findSepFrom_nodash :
    ∀ (l : List Char), (∀ c ∈ l, (c == '-') = false) →
      ∀ (prev : Bool), findSepFrom prev l = none
  | [], _, _ => rfl
  | c :: rest, h, prev => by
    rw [findSepFrom_cons]
    have hc : (c == '-') = false := h c (List.mem_cons_self c rest)
    rw [hc]
    simp only [Bool.false_and, Bool.false_eq_true, if_false]
    rw [findSepFrom_nodash rest (fun x hx => h x (List.mem_cons_of_mem c hx)) false]
    rfl

/-- A list without four consecutive dashes (no plain `----` substring at
all) yields no separator match. -/
theorem findSepFrom_of_no_four_dashes :
    ∀ (l : List Char), hasFourDashes l = false →
      ∀ (prev : Bool), findSepFrom prev l = none
  | [], _, _ => rfl
  | c :: rest, h, prev => by
    have h' := h
    simp only [hasFourDashes, Bool.or_eq_false_iff, Bool.and_eq_false_iff] at h'
    obtain ⟨hhead, hrest⟩ := h'
    rw [findSepFrom_cons]
    have hcond : (c == '-' && !prev && sepTailOk rest) = false := by
      rcases hhead with hc | htake
      · simp [hc]
      · simp [sepTailOk, htake]
    rw [hcond]
    simp only [Bool.false_eq_true, if_false]
    rw [findSepFrom_of_no_four_dashes rest hrest (c == '-')]
    rfl

/-- Scanning past a dash-free chunk: if the rest of the list yields no
match under any lookbehind state, neither does the whole list. -/
theorem findSepFrom_skip_nodash :
    ∀ (a rest : List Char), (∀ c ∈ a, (c == '-') = false) →
      (∀ prev, findSepFrom prev rest = none) →
      ∀ (prev : Bool), findSepFrom prev (a ++ rest) = none
  | [], rest, _, hrest, prev => hrest prev
  | c :: a', rest, h, hrest, prev => by
    rw [List.cons_append, findSepFrom_cons]
    have hc : (c == '-') = false := h c (List.mem_cons_self c a')
    rw [hc]
    simp only [Bool.false_and, Bool.false_eq_true, if_false]
    rw [findSepFrom_skip_nodash a' rest
      (fun x hx => h x (List.mem_cons_of_mem c hx)) hrest false]
    rfl

theorem take3_ne_dashes (b : List Char)
    (hb : ∀ c ∈ b, (c == '-') = false) :
    (b.take 3 == ['-', '-', '-']) = false := by
  cases b with
  | nil => rfl
  | cons c rest =>
    have hc : (c == '-') = false := hb c (List.mem_cons_self c rest)
    simp [hc]

theorem take2_ne_dashes (b : List Char)
    (hb : ∀ c ∈ b, (c == '-') = false) :
    (b.take 2 == ['-', '-']) = false := by
  cases b with
  | nil => rfl
  | cons c rest =>
    have hc : (c == '-') = false := hb c (List.mem_cons_self c rest)
    simp [hc]

theorem take1_ne_dashes (b : List Char)
    (hb : ∀ c ∈ b, (c == '-') = false) :
    (b.take 1 == ['-']) = false := by
  cases b with
  | nil => rfl
  | cons c rest =>
    have hc : (c == '-') = false := hb c (List.mem_cons_self c rest)
    simp [hc]

/-- The lookahead check on a dash run followed by dash-free text succeeds
exactly when three dashes remain (so the run one position earlier has
exactly four). -/
theorem sepTailOk_replicate (n : Nat) (b : List Char)
    (hb : ∀ c ∈ b, (c == '-') = false) :
    sepTailOk (List.replicate n '-' ++ b) = (n == 3) := by
  match n with
  | 0 =>
    show sepTailOk b = false
    simp only [sepTailOk, Bool.and_eq_false_iff]
    left
    exact take3_ne_dashes b hb
  | 1 =>
    show sepTailOk ('-' :: b) = false
    simp only [sepTailOk, List.take_succ_cons, Bool.and_eq_false_iff]
    left
    simpa using take2_ne_dashes b hb
  | 2 =>
    show sepTailOk ('-' :: '-' :: b) = false
    simp only [sepTailOk, List.take_succ_cons, Bool.and_eq_false_iff]
    left
    simpa using take1_ne_dashes b hb
  | 3 =>
    show sepTailOk ('-' :: '-' :: '-' :: b) = true
    simp [sepTailOk, startsWithDash_nodash b hb]
  | m + 4 =>
    show sepTailOk ('-' :: '-' :: '-' :: '-' :: (List.replicate m '-' ++ b)) =
      (m + 4 == 3)
    simp [sepTailOk, startsWithDash]

/-- A dash run of any length other than four, followed by dash-free text,
yields no separator match (for a run of exactly four, this still holds
when the lookbehind reports a preceding dash). -/
theorem findSepFrom_replicate :
    ∀ (n : Nat) (prev : Bool) (b : List Char),
      (∀ c ∈ b, (c == '-') = false) → (n = 4 → prev = true) →
      findSepFrom prev (List.replicate n '-' ++ b) = none
  | 0, prev, b, hb, _ => findSepFrom_nodash b hb prev
  | n + 1, prev, b, hb, h4 => by
    show findSepFrom prev ('-' :: (List.replicate n '-' ++ b)) = none
    rw [findSepFrom_cons]
    have hcond : (('-' : Char) == '-' && !prev &&
        sepTailOk (List.replicate n '-' ++ b)) = false := by
      rw [sepTailOk_replicate n b hb]
      by_cases h3 : n = 3
      · subst h3
        have hprev : prev = true := h4 rfl
        subst hprev
        simp
      · simp [h3]
    rw [hcond]
    simp only [Bool.false_eq_true, if_false]
    rw [findSepFrom_replicate n ('-' == '-') b hb (fun _ => rfl)]
    rfl

theorem data_append (s t : String) : (s ++ t).data = s.data ++ t.data := rfl

theorem sep_data : ("----" : String).data = SEP := rfl

theorem noDash_mem (s : String) (h : noDash s = true) :
    ∀ c ∈ s.data, (c == '-') = false := by
  intro c hc
  have := List.all_eq_true.mp h c hc
  simpa using this

theorem string_ne_empty_data (s : String) (h : s ≠ "") : s.data ≠ [] := by
  intro hd
  exact h (String.ext (by rw [hd]))

/-- Shared helper: content made of a dash-free part, a dash run whose
length is not four, and another dash-free part holds no separator, so the
splitter returns the rendered full content twice. -/
theorem split_and_render_run (render : String → String) (a b : String)
    (n : Nat) (ha : noDash a = true) (hb : noDash b = true) (hn : n ≠ 4) :
    split_and_render render (a ++ dashes n ++ b) =
      (render (a ++ dashes n ++ b), render (a ++ dashes n ++ b)) := by
  have ha' := noDash_mem a ha
  have hb' := noDash_mem b hb
  have hrest : ∀ prev, findSepFrom prev (List.replicate n '-' ++ b.data) = none := by
    intro prev
    exact findSepFrom_replicate n prev b.data hb' (fun h4 => absurd h4 hn)
  have hnone := findSepFrom_skip_nodash a.data
    (List.replicate n '-' ++ b.data) ha' hrest false
  have hdata : (a ++ dashes n ++ b).data =
      a.data ++ (List.replicate n '-' ++ b.data) := by
    show (a.data ++ List.replicate n '-') ++ b.data = _
    rw [List.append_assoc]
  unfold split_and_render
  rw [hdata, hnone]

/-- C1 (amended): for content of the form a ++ "----" ++ b where a and b
are non-empty, a contains no isolated four-dash run and does not end with
a dash, and b does not start with a dash — so the displayed separator is
the leftmost isolated four-dash run — split_and_render returns
description = render(a) and body = render(a ++ b), the content with that
one separator occurrence deleted. -/
theorem C1_genuine_split (render : String → String) (a b : String)
    (ha : a ≠ "") (hb : b ≠ "")
    (hnosep : findSepFrom false a.data = none)
    (hend : endsWithDash a.data = false)
    (hstart : startsWithDash b.data = false) :
    split_and_render render (a ++ "----" ++ b) = (render a, render (a ++ b)) := by
  have hdata : (a ++ "----" ++ b).data = a.data ++ SEP ++ b.data := rfl
  have hfind := findSepFrom_append a.data false b.data (fun _ => rfl) hend hnosep hstart
  unfold split_and_render
  rw [hdata, hfind]
  rfl

/-- C1 (witness): the genuine split of the spec's first concrete scenario. -/
theorem C1_witness :
    split_and_render renderP ("Hello world" ++ "----" ++ "this is the rest") =
      (renderP ("Hello world"), renderP ("Hello world" ++ "this is the rest")) :=
  C1_genuine_split renderP ("Hello world") ("this is the rest")
    (by decide) (by decide) (by decide) (by decide) (by decide)

/-- C1 (counterexample): in "a-----b" the first plain occurrence of "----"
has non-empty text on both sides ("a" and "-b"), so the claim predicts
description = render "a" and body = render "a-b"; the splitter instead
finds no isolated four-dash run and leaves the content unsplit, as the
repository's tests demand for five-dash runs. -/
theorem C1_counterexample :
    split_and_render renderP ("a-----b") =
      ("<p>a-----b</p>\n", "<p>a-----b</p>\n") ∧
    split_and_render renderP ("a-----b") ≠ ("<p>a</p>\n", "<p>a-b</p>\n") :=
  ⟨by decide, by decide⟩

/-- C2 (amended): for content with no occurrence of "----" at all, no
split happens and split_and_render returns the rendered full content as
BOTH components: description = render(content) = body (not the empty
string, contrary to the claim). -/
theorem C2_no_token (render : String → String) (c : String)
    (h : hasFourDashes c.data = false) :
    split_and_render render c = (render c, render c) := by
  unfold split_and_render
  rw [findSepFrom_of_no_four_dashes c.data h false]

/-- C2 (witness): the separator-free scenario of the spec and of the
tests. -/
theorem C2_witness :
    hasFourDashes ("no separator here" : String).data = false ∧
    split_and_render renderP ("no separator here") =
      (renderP ("no separator here"), renderP ("no separator here")) :=
  ⟨by decide, C2_no_token renderP ("no separator here") (by decide)⟩

/-- C2 (counterexample): on separator-free content the description is the
rendered content, not the empty string the claim requires. -/
theorem C2_counterexample :
    split_and_render renderP ("no separator here") =
      ("<p>no separator here</p>\n", "<p>no separator here</p>\n") ∧
    split_and_render renderP ("no separator here") ≠
      ("", "<p>no separator here</p>\n") :=
  ⟨by decide, by decide⟩

/-- C3 (amended): for content a ++ "----" with non-empty a holding no
isolated four-dash run and not ending with a dash (the remainder of the
split is empty), the separator is removed from the body as the claim
says, but the description is not empty: it equals the rendered text
before the separator, which coincides with the body. -/
theorem C3_empty_remainder (render : String → String) (a : String)
    (ha : a ≠ "")
    (hnosep : findSepFrom false a.data = none)
    (hend : endsWithDash a.data = false) :
    split_and_render render (a ++ "----") = (render a, render a) := by
  have hfind := findSepFrom_append a.data false [] (fun _ => rfl) hend hnosep rfl
  have hdata : (a ++ "----").data = a.data ++ SEP ++ [] := by
    rw [List.append_nil]
    rfl
  unfold split_and_render
  rw [hdata, hfind]
  show (render ⟨a.data⟩, render ⟨a.data ++ []⟩) = (render a, render a)
  rw [List.append_nil]

/-- C3 (witness): the trailing-separator scenario of the tests. -/
theorem C3_witness :
    split_and_render renderP ("only leading" ++ "----") =
      (renderP ("only leading"), renderP ("only leading")) :=
  C3_empty_remainder renderP ("only leading") (by decide) (by decide) (by decide)

/-- C3 (counterexample): for "only leading----" the claim predicts an
empty description; the splitter returns the rendered prefix (equal to the
body) as the description, exactly as the repository's test asserts. -/
theorem C3_counterexample :
    split_and_render renderP ("only leading----") =
      ("<p>only leading</p>\n", "<p>only leading</p>\n") ∧
    split_and_render renderP ("only leading----") ≠
      ("", "<p>only leading</p>\n") :=
  ⟨by decide, by decide⟩

/-- C4 (amended): for content "----" ++ b with b non-empty and not
starting with a dash (so the leading four dashes form an isolated run),
the split is degenerate on the description side: description =
render("") = "" (the injected renderer maps empty to empty) and body =
render(b), the content with the separator deleted. -/
theorem C4_empty_prefix (render : String → String) (b : String)
    (hr : render ("") = "") (hb : b ≠ "")
    (hstart : startsWithDash b.data = false) :
    split_and_render render ("----" ++ b) = ("", render b) := by
  have hfind := findSepFrom_append [] false b.data (fun _ => rfl) rfl rfl hstart
  have hdata : (("----" ++ b) : String).data = [] ++ SEP ++ b.data := rfl
  unfold split_and_render
  rw [hdata, hfind]
  show (render "", render ⟨b.data⟩) = ("", render b)
  rw [hr]

/-- C4 (witness): the leading-separator scenario of the spec and of the
tests. -/
theorem C4_witness :
    split_and_render renderP ("----" ++ "only trailing") =
      ("", renderP ("only trailing")) :=
  C4_empty_prefix renderP ("only trailing") (by decide) (by decide) (by decide)

/-- C4 (counterexample): "-----x" begins with "----" followed by the
non-empty text "-x", so the claim predicts description = "" and body =
render "-x"; the five-dash run is not an isolated four-dash run, so the
splitter leaves the content unsplit. -/
theorem C4_counterexample :
    split_and_render renderP ("-----x") =
      ("<p>-----x</p>\n", "<p>-----x</p>\n") ∧
    split_and_render renderP ("-----x") ≠ ("", "<p>-x</p>\n") :=
  ⟨by decide, by decide⟩

/-- C5 (amended): whenever the splitter finds a separator it is the
leftmost isolated run of exactly four dashes: the content decomposes as
p ++ "----" ++ q and the body is render(p ++ q), the content with exactly
that one run removed; when no isolated four-dash run exists the body is
the rendered full content. -/
theorem C5_body_is_content_without_separator (render : String → String)
    (c : String) :
    (∀ p q : List Char, findSepFrom false c.data = some (p, q) →
      c = String.mk p ++ "----" ++ String.mk q ∧
      (split_and_render render c).2 = render (String.mk p ++ String.mk q)) ∧
    (findSepFrom false c.data = none →
      (split_and_render render c).2 = render c) := by
  constructor
  · intro p q hfind
    obtain ⟨h1, _, _, _⟩ := findSepFrom_sound c.data false p q hfind
    constructor
    · exact congrArg String.mk h1
    · unfold split_and_render
      rw [hfind]
      rfl
  · intro hnone
    unfold split_and_render
    rw [hnone]

/-- C5 (witness): the separator of "u----v" is found, the content
decomposes around it, and the body is the render of the concatenated
sides. -/
theorem C5_witness :
    ("u----v" : String) = String.mk ['u'] ++ "----" ++ String.mk ['v'] ∧
    (split_and_render renderP ("u----v")).2 =
      renderP (String.mk ['u'] ++ String.mk ['v']) :=
  (C5_body_is_content_without_separator renderP ("u----v")).1 ['u'] ['v'] (by decide)

/-- C5 (counterexample): "x-----y" contains "----" (leftmost occurrence
at the start of the five-dash run), so the claim predicts body =
render "x-y"; the splitter removes nothing and the body keeps all five
dashes. -/
theorem C5_counterexample :
    (split_and_render renderP ("x-----y")).2 = "<p>x-----y</p>\n" ∧
    (split_and_render renderP ("x-----y")).2 ≠ "<p>x-y</p>\n" :=
  ⟨by decide, by decide⟩

/-- C6 (amended): content made of dash-free text around a single dash run
of length 2, 3, 5 or 6 holds no separator: no split occurs and the dashes
are preserved verbatim — but the description is the rendered full
content, equal to the body, not the empty string. -/
theorem C6_short_and_long_runs (render : String → String) (a b : String)
    (n : Nat) (ha : noDash a = true) (hb : noDash b = true)
    (hn : n = 2 ∨ n = 3 ∨ n = 5 ∨ n = 6) :
    split_and_render render (a ++ dashes n ++ b) =
      (render (a ++ dashes n ++ b), render (a ++ dashes n ++ b)) := by
  apply split_and_render_run render a b n ha hb
  rcases hn with h | h | h | h <;> omega

/-- C6 (witness): a two-dash run is not a separator. -/
theorem C6_witness :
    split_and_render renderP ("aa" ++ dashes 2 ++ "bb") =
      (renderP ("aa" ++ dashes 2 ++ "bb"), renderP ("aa" ++ dashes 2 ++ "bb")) :=
  C6_short_and_long_runs renderP ("aa") ("bb") 2 (by decide) (by decide)
    (Or.inl rfl)

/-- C6 (counterexample): for "aa--bb" the claim predicts an empty
description; the splitter returns the rendered full content as the
description, as the repository's test asserts. -/
theorem C6_counterexample :
    split_and_render renderP ("aa--bb") =
      ("<p>aa--bb</p>\n", "<p>aa--bb</p>\n") ∧
    split_and_render renderP ("aa--bb") ≠ ("", "<p>aa--bb</p>\n") :=
  ⟨by decide, by decide⟩

/-- C7 (amended): the splitter locates the separator by a leftmost
left-to-right scan for an ISOLATED run of exactly four dashes (a "----"
neither preceded nor followed by another dash), not by plain substring
search: every successful match decomposes the content around such an
isolated run, and a five-dash run between dash-free text contains no
match at all — all five dashes survive into the output. -/
theorem C7_isolated_run_matching :
    (∀ (render : String → String) (c : String) (p q : List Char),
      findSepFrom false c.data = some (p, q) →
      c.data = p ++ SEP ++ q ∧ endsWithDash p = false ∧
        startsWithDash q = false ∧
        split_and_render render c =
          (render (String.mk p), render (String.mk (p ++ q)))) ∧
    (∀ (render : String → String) (a b : String),
      noDash a = true → noDash b = true →
      split_and_render render (a ++ dashes 5 ++ b) =
        (render (a ++ dashes 5 ++ b), render (a ++ dashes 5 ++ b))) := by
  constructor
  · intro render c p q hfind
    obtain ⟨h1, h2, h3, _⟩ := findSepFrom_sound c.data false p q hfind
    refine ⟨h1, h3, h2, ?_⟩
    unfold split_and_render
    rw [hfind]
  · intro render a b ha hb
    exact split_and_render_run render a b 5 ha hb (by omega)

/-- C7 (witness): both parts of the isolated-run characterisation at
concrete inputs: the match inside "k----m", and the unsplit five-dash run
of "k-----m". -/
theorem C7_witness :
    (("k----m" : String).data = ['k'] ++ SEP ++ ['m'] ∧
      endsWithDash ['k'] = false ∧ startsWithDash ['m'] = false ∧
      split_and_render renderP ("k----m") =
        (renderP (String.mk ['k']), renderP (String.mk (['k'] ++ ['m'])))) ∧
    split_and_render renderP ("k" ++ dashes 5 ++ "m") =
      (renderP ("k" ++ dashes 5 ++ "m"), renderP ("k" ++ dashes 5 ++ "m")) :=
  ⟨C7_isolated_run_matching.1 renderP ("k----m") ['k'] ['m'] (by decide),
    C7_isolated_run_matching.2 renderP ("k") ("m") (by decide) (by decide)⟩

/-- C7 (counterexample): the claim predicts that in "q-----r" the
five-dash run yields a valid match at its start, removing four of the
five dashes (description = render "q", body = render "q-r"); the splitter
requires dash-boundary isolation and leaves all five dashes in place. -/
theorem C7_counterexample :
    split_and_render renderP ("q-----r") =
      ("<p>q-----r</p>\n", "<p>q-----r</p>\n") ∧
    split_and_render renderP ("q-----r") ≠ ("<p>q</p>\n", "<p>q-r</p>\n") :=
  ⟨by decide, by decide⟩

/-- C8: with two separator tokens ("A----B----C", A, B, C non-empty and
dash-free), only the first four-dash run is removed: description =
render(A) and body = render(A ++ B ++ "----" ++ C), the second run
remaining in the body as literal dashes. -/
theorem C8_two_separators (render : String → String) (A B C : String)
    (hA : A ≠ "") (hB : B ≠ "") (hC : C ≠ "")
    (hdA : noDash A = true) (hdB : noDash B = true) (hdC : noDash C = true) :
    split_and_render render (A ++ "----" ++ B ++ "----" ++ C) =
      (render A, render (A ++ B ++ "----" ++ C)) := by
  have hA' := noDash_mem A hdA
  have hB' := noDash_mem B hdB
  have hstart : startsWithDash (B.data ++ SEP ++ C.data) = false := by
    cases hBd : B.data with
    | nil => exact absurd (String.ext (by rw [hBd])) hB
    | cons x xs =>
      have hx : (x == '-') = false := hB' x (by rw [hBd]; exact List.mem_cons_self x xs)
      exact hx
  have hfind := findSepFrom_append A.data false (B.data ++ SEP ++ C.data)
    (fun _ => rfl) (endsWithDash_nodash A.data hA')
    (findSepFrom_nodash A.data hA' false) hstart
  have hdata : (A ++ "----" ++ B ++ "----" ++ C).data =
      A.data ++ SEP ++ (B.data ++ SEP ++ C.data) := by
    simp only [data_append, sep_data, SEP, List.append_assoc]
  unfold split_and_render
  rw [hdata, hfind]
  show (render ⟨A.data⟩, render ⟨A.data ++ (B.data ++ SEP ++ C.data)⟩) =
    (render A, render (A ++ B ++ "----" ++ C))
  have hbody : A.data ++ (B.data ++ SEP ++ C.data) =
      (A ++ B ++ "----" ++ C).data := by
    simp only [data_append, sep_data, SEP, List.append_assoc]
  rw [hbody]

/-- C8 (witness): the spec's sixth concrete scenario. -/
theorem C8_witness :
    split_and_render renderP ("A" ++ "----" ++ "B" ++ "----" ++ "C") =
      (renderP ("A"), renderP ("A" ++ "B" ++ "----" ++ "C")) :=
  C8_two_separators renderP ("A") ("B") ("C") (by decide) (by decide)
    (by decide) (by decide) (by decide) (by decide)

/-- C9: the splitter is a total Lean function by construction, so it
never fails on any string; on the empty string it returns description =
"" and body = render("") provided the injected renderer (like the
markdown renderer and the spec's trivial renderer) maps the empty string
to the empty string. -/
theorem C9_total_on_empty (render : String → String)
    (hr : render ("") = "") :
    split_and_render render ("") = ("", render ("")) := by
  show (render (""), render ("")) = ("", render (""))
  rw [hr]

/-- C9 (witness): the empty string under the trivial paragraph
renderer. -/
theorem C9_witness : split_and_render renderP ("") = ("", renderP ("")) :=
  C9_total_on_empty renderP (by decide)

/-- Every character has a non-empty full uppercase mapping. -/
theorem pyUpperChar_ne_nil (c : Char) : pyUpperChar c ≠ [] := by
  intro h
  simp only [pyUpperChar] at h
  generalize c.toNat = n at h
  by_cases hc0 : 97 ≤ n ∧ n ≤ 122
  · rw [if_pos hc0] at h
    exact List.cons_ne_nil _ _ h
  · rw [if_neg hc0] at h
    by_cases hc1 : n = 181
    · rw [if_pos hc1] at h
      exact List.cons_ne_nil _ _ h
    · rw [if_neg hc1] at h
      by_cases hc2 : n = 223
      · rw [if_pos hc2] at h
        exact List.cons_ne_nil _ _ h
      · rw [if_neg hc2] at h
        by_cases hc3 : 224 ≤ n ∧ n ≤ 246 ∨ 248 ≤ n ∧ n ≤ 254
        · rw [if_pos hc3] at h
          exact List.cons_ne_nil _ _ h
        · rw [if_neg hc3] at h
          by_cases hc4 : n = 255
          · rw [if_pos hc4] at h
            exact List.cons_ne_nil _ _ h
          · rw [if_neg hc4] at h
            by_cases hc5 : n = 305
            · rw [if_pos hc5] at h
              exact List.cons_ne_nil _ _ h
            · rw [if_neg hc5] at h
              by_cases hc6 : 257 ≤ n ∧ n ≤ 311 ∧ n % 2 = 1
              · rw [if_pos hc6] at h
                exact List.cons_ne_nil _ _ h
              · rw [if_neg hc6] at h
                by_cases hc7 : 314 ≤ n ∧ n ≤ 328 ∧ n % 2 = 0
                · rw [if_pos hc7] at h
                  exact List.cons_ne_nil _ _ h
                · rw [if_neg hc7] at h
                  by_cases hc8 : n = 329
                  · rw [if_pos hc8] at h
                    exact List.cons_ne_nil _ _ h
                  · rw [if_neg hc8] at h
                    by_cases hc9 : 331 ≤ n ∧ n ≤ 375 ∧ n % 2 = 1
                    · rw [if_pos hc9] at h
                      exact List.cons_ne_nil _ _ h
                    · rw [if_neg hc9] at h
                      by_cases hc10 : n = 378 ∨ n = 380 ∨ n = 382
                      · rw [if_pos hc10] at h
                        exact List.cons_ne_nil _ _ h
                      · rw [if_neg hc10] at h
                        by_cases hc11 : n = 383
                        · rw [if_pos hc11] at h
                          exact List.cons_ne_nil _ _ h
                        · rw [if_neg hc11] at h
                          exact List.cons_ne_nil _ _ h

theorem length_le_length_join_map (f : Char → List Char)
    (hf : ∀ c, f c ≠ []) :
    ∀ (l : List Char), l.length ≤ ((l.map f).flatten).length
  | [] => Nat.le_refl 0
  | c :: rest => by
    simp only [List.map_cons, List.flatten_cons, List.length_append,
      List.length_cons]
    have h1 : 1 ≤ (f c).length := List.length_pos.mpr (hf c)
    have h2 := length_le_length_join_map f hf rest
    omega

/-- If uppercasing a string (each character mapped to its non-empty full
uppercase expansion, all expansions concatenated) returns the string
itself, then every character of the string is fixed by the mapping. -/
theorem join_map_eq_self (f : Char → List Char) (hf : ∀ c, f c ≠ []) :
    ∀ (l : List Char), l = (l.map f).flatten → ∀ c ∈ l, f c = [c]
  | [], _, c, hc => absurd hc (by simp)
  | x :: rest, h, c, hc => by
    rw [List.map_cons, List.flatten_cons] at h
    cases hfx : f x with
    | nil => exact absurd hfx (hf x)
    | cons d ds =>
      rw [hfx, List.cons_append] at h
      injection h with h1 h2
      have hlen := congrArg List.length h2
      rw [List.length_append] at hlen
      have hge := length_le_length_join_map f hf rest
      have hds : ds = [] := List.length_eq_zero.mp (by omega)
      subst hds
      rw [List.nil_append] at h2
      rcases List.mem_cons.mp hc with hcx | hcr
      · subst hcx
        rw [hfx, h1]
      · exact join_map_eq_self f hf rest h2 c hcr

/-- C10 (amended): for every value within the modelled Latin blocks,
validate_not_all_caps raises the caps ValidationError if and only if the
value is longer than three characters, its last character is uppercase
and the value equals its own uppercased form; it never raises on values
of length at most three, and never on values containing a lowercase
letter whose uppercase form differs from itself.  (The original claim's
unqualified lowercase clause is false: lowercase letters such as ª, º
and ĸ have no uppercase form, are fixed by upper(), and do not prevent
the error.) -/
theorem C10_validate_not_all_caps_iff (v : String)
    (hdom : v.data.all inLatinBlocks = true) :
    (validate_not_all_caps v = some ("caps") ↔
      (3 < v.length ∧ lastIsUpper v = true ∧ v = pyUpper v)) ∧
    (v.length ≤ 3 → validate_not_all_caps v = none) ∧
    ((∃ c ∈ v.data, pyIsLowerChar c = true ∧ pyUpperChar c ≠ [c]) →
      validate_not_all_caps v = none) := by
  have hbase : ∀ (hc : ¬(3 < v.length ∧ lastIsUpper v = true ∧ v = pyUpper v)),
      validate_not_all_caps v = none := by
    intro hc
    unfold validate_not_all_caps
    rw [if_neg hc]
  refine ⟨⟨?_, ?_⟩, ?_, ?_⟩
  · intro h
    by_cases hc : 3 < v.length ∧ lastIsUpper v = true ∧ v = pyUpper v
    · exact hc
    · rw [hbase hc] at h
      exact absurd h (by simp)
  · intro hc
    unfold validate_not_all_caps
    rw [if_pos hc]
  · intro hlen
    apply hbase
    intro hc
    omega
  · rintro ⟨c, hmem, hlow, hne⟩
    apply hbase
    rintro ⟨-, -, hupper⟩
    have hdata : v.data = (v.data.map pyUpperChar).flatten :=
      congrArg String.data hupper
    exact hne (join_map_eq_self pyUpperChar pyUpperChar_ne_nil v.data hdata c hmem)

/-- C10 (witness): the validator raises on the all-caps Esperanto value
"ĈĜĤĴ" and on "ABCD"; it stays silent on the short all-caps value "AB"
and on "AAéA", whose é is a lowercase letter changed by upper(). -/
theorem C10_witness :
    validate_not_all_caps ("ĈĜĤĴ") = some ("caps") ∧
    validate_not_all_caps ("ABCD") = some ("caps") ∧
    validate_not_all_caps ("AB") = none ∧
    validate_not_all_caps ("AAéA") = none :=
  ⟨(C10_validate_not_all_caps_iff ("ĈĜĤĴ") (by decide)).1.mpr (by decide),
    (C10_validate_not_all_caps_iff ("ABCD") (by decide)).1.mpr (by decide),
    (C10_validate_not_all_caps_iff ("AB") (by decide)).2.1 (by decide),
    (C10_validate_not_all_caps_iff ("AAéA") (by decide)).2.2
      ⟨'é', by decide, by decide, by decide⟩⟩

/-- C10 (counterexample): the validator raises on "AAªA" even though
that value contains the lowercase character ª (Unicode Other_Lowercase,
Python's islower): ª has no uppercase form, upper() leaves it in place,
and the value equals its own uppercased form — refuting the claim's
clause that a lowercase letter always prevents the error. -/
theorem C10_counterexample :
    validate_not_all_caps ("AAªA") = some ("caps") ∧
    'ª' ∈ ("AAªA" : String).data ∧ pyIsLowerChar 'ª' = true :=
  ⟨by decide, by decide, by decide⟩

/-- The model reproduces the concrete scenarios asserted by the
repository's tests (PostModelTests.test_save and test_splitter) at
representative inputs. -/
theorem model_scenario_genuine_split : split_and_render renderP ("Hello world----this is the rest") =
    ("<p>Hello world</p>\n", "<p>Hello worldthis is the rest</p>\n") := by decide

theorem model_scenario_leading_separator : split_and_render renderP ("----only trailing") =
    ("", "<p>only trailing</p>\n") := by decide

theorem model_scenario_trailing_separator : split_and_render renderP ("only leading----") =
    ("<p>only leading</p>\n", "<p>only leading</p>\n") := by decide

theorem model_scenario_no_separator : split_and_render renderP ("no separator here") =
    ("<p>no separator here</p>\n", "<p>no separator here</p>\n") := by decide

theorem model_scenario_five_dash_run : split_and_render renderP ("aa-----bb") =
    ("<p>aa-----bb</p>\n", "<p>aa-----bb</p>\n") := by decide

theorem model_scenario_short_run_then_separator : split_and_render renderP ("aa--bb----cc") =
    ("<p>aa--bb</p>\n", "<p>aa--bbcc</p>\n") := by decide

theorem model_scenario_two_separators : split_and_render renderP ("A----B----C") =
    ("<p>A</p>\n", "<p>AB----C</p>\n") := by decide

end PasportaServo
